import Mathlib

/-!
Verification of the pyvax-cli contract-state abstraction and of the
transaction submission pipeline.

Shallow embedding of the Python contracts under `contracts/` and
`my_project/contracts/`, and of the transaction-submission helper
`send_transaction` found in `examples/stake_token_examples.py` (the same
pattern appears inline in `test_stake_transactions.py`).  Python dicts
are modelled as ordered association lists with first-occurrence lookup
(matching `dict.get` and item assignment), Python `int` as `Int`, and
Python floor division `//` as `Int.fdiv`.  A Python method that can
`raise` is modelled as returning `State × Option String`: `none` means a
normal return, `some msg` means the exception `msg` escaped; statements
are translated in source order, so a raise placed before any mutation
returns the entry state unchanged.
-/

abbrev Addr := String

/-- Event payload values: the toy contracts emit ints and strings. -/
inductive Val where
  | i (n : Int)
  | s (t : String)
deriving DecidableEq, Repr

abbrev Event := String × List Val

/-- `m.get(k, d)` on a Python dict modelled as an association list. -/
def dictGet (m : List (Addr × Int)) (k : Addr) (d : Int) : Int :=
  match m with
  | [] => d
  | (k1, v) :: rest => if k1 = k then v else dictGet rest k d

/-- `m[k] = v` on a Python dict: replace the first binding of `k` in
place, or append a new binding at the end (insertion order). -/
def dictSet (m : List (Addr × Int)) (k : Addr) (v : Int) : List (Addr × Int) :=
  match m with
  | [] => [(k, v)]
  | (k1, v1) :: rest =>
    if k1 = k then (k, v) :: rest else (k1, v1) :: dictSet rest k v

/-- `k in m` on a Python dict. -/
def dictHasKey (m : List (Addr × Int)) (k : Addr) : Bool :=
  match m with
  | [] => false
  | (k1, _) :: rest => if k1 = k then true else dictHasKey rest k

/-- Sum of all the values held in a dict. -/
def sumValues (m : List (Addr × Int)) : Int :=
  match m with
  | [] => 0
  | (_, v) :: rest => v + sumValues rest

namespace Counter

/-- State of `contracts/Counter.py`: the slot `count` plus the
append-only event log. -/
structure State where
  count : Int
  events : List Event
deriving DecidableEq, Repr

/-- `Counter.__init__`: the slot `count` starts at 0. -/
def init : State := { count := 0, events := [] }

/-- `increment` (`@public_function`): the event payload is the value of
`self.count` after the assignment. -/
def increment (s : State) : State × Option String :=
  let s := { s with count := s.count + 1 }
  ({ s with events := s.events ++ [("Incremented", [Val.i s.count])] }, none)

/-- `decrement` (`@public_function`): the whole body is guarded by
`if self.count > 0`, so at zero nothing happens. -/
def decrement (s : State) : State × Option String :=
  if s.count > 0 then
    let s := { s with count := s.count - 1 }
    ({ s with events := s.events ++ [("Decremented", [Val.i s.count])] }, none)
  else (s, none)

/-- `get_count` (`@view_function`): `return self.count`. -/
def get_count (s : State) : Int × State := (s.count, s)

/-- `reset` (`@public_function`). -/
def reset (s : State) : State × Option String :=
  ({ s with count := 0, events := s.events ++ [("Reset", [])] }, none)

/-- The write operations of the contract. -/
inductive Op where
  | inc
  | dec
  | res
deriving DecidableEq, Repr

def applyOp (op : Op) (s : State) : State × Option String :=
  match op with
  | .inc => increment s
  | .dec => decrement s
  | .res => reset s

/-- Run a sequence of write operations, threading the state. -/
def run (ops : List Op) (s : State) : State :=
  match ops with
  | [] => s
  | op :: rest => run rest (applyOp op s).1

end Counter

namespace BeginnerToken

/-- State of `my_project/contracts/BeginnerToken.py`. -/
structure State where
  name : String
  symbol : String
  total_supply : Int
  balances : List (Addr × Int)
  owner : Addr
  events : List Event
deriving DecidableEq, Repr

/-- `BeginnerToken.__init__`: the creator (`msg_sender()`) becomes the
owner and receives the entire supply. -/
def init (creator : Addr) : State :=
  { name := "BeginnerCoin", symbol := "BGN", total_supply := 1000000,
    balances := dictSet [] creator 1000000, owner := creator, events := [] }

/-- `balance_of` (`@view_function`): `self.balances.get(account, 0)`. -/
def balance_of (s : State) (account : Addr) : Int × State :=
  (dictGet s.balances account 0, s)

/-- `transfer` (`@public_function`); `sender` is the ambient
`msg_sender()` context passed explicitly.  Both raises precede every
mutation. -/
def transfer (s : State) (sender dst : Addr) (amount : Int) :
    State × Option String :=
  if dictGet s.balances sender 0 < amount then (s, some "Not enough tokens!")
  else if amount ≤ 0 then (s, some "Amount must be positive!")
  else
    let b1 := dictSet s.balances sender (dictGet s.balances sender 0 - amount)
    let b2 := dictSet b1 dst (dictGet b1 dst 0 + amount)
    ({ s with balances := b2,
              events := s.events ++
                [("Transfer", [Val.s sender, Val.s dst, Val.i amount])] }, none)

/-- `mint` (`@public_function`): owner-only, positive amounts only. -/
def mint (s : State) (sender : Addr) (amount : Int) : State × Option String :=
  if sender ≠ s.owner then (s, some "Only owner can mint tokens!")
  else if amount ≤ 0 then (s, some "Amount must be positive!")
  else
    let s := { s with total_supply := s.total_supply + amount }
    ({ s with
        balances := dictSet s.balances s.owner (dictGet s.balances s.owner 0 + amount),
        events := s.events ++ [("Mint", [Val.s s.owner, Val.i amount])] }, none)

/-- `burn` (`@public_function`). -/
def burn (s : State) (sender : Addr) (amount : Int) : State × Option String :=
  if dictGet s.balances sender 0 < amount then (s, some "Not enough tokens to burn!")
  else if amount ≤ 0 then (s, some "Amount must be positive!")
  else
    let s := { s with
      balances := dictSet s.balances sender (dictGet s.balances sender 0 - amount) }
    ({ s with total_supply := s.total_supply - amount,
              events := s.events ++ [("Burn", [Val.s sender, Val.i amount])] }, none)

/-- The write operations, with the ambient `msg_sender` made explicit. -/
inductive Op where
  | transfer (sender dst : Addr) (amount : Int)
  | mint (sender : Addr) (amount : Int)
  | burn (sender : Addr) (amount : Int)
deriving DecidableEq, Repr

def applyOp (op : Op) (s : State) : State × Option String :=
  match op with
  | .transfer sender dst amount => transfer s sender dst amount
  | .mint sender amount => mint s sender amount
  | .burn sender amount => burn s sender amount

end BeginnerToken

namespace MintableToken

/-- State of `my_project/contracts/mint.py`. -/
structure State where
  name : String
  symbol : String
  decimals : Int
  admin : Addr
  total_supply : Int
  balances : List (Addr × Int)
  events : List Event
deriving DecidableEq, Repr

/-- `MintableToken.__init__` with the creator as `msg_sender()`. -/
def init (creator : Addr) : State :=
  { name := "MintableToken", symbol := "MINT", decimals := 18,
    admin := creator, total_supply := 0, balances := [], events := [] }

/-- `balance_of` (`@view_function`): `self.balances.get(user, 0)`. -/
def balance_of (s : State) (user : Addr) : Int × State :=
  (dictGet s.balances user 0, s)

end MintableToken

namespace Defi

/-- State of `my_project/contracts/Defi.py`. -/
structure State where
  admin : Addr
  balances : List (Addr × Int)
  total_deposits : Int
  interest_rate : Int
  last_update : List (Addr × Int)
  events : List Event
deriving DecidableEq, Repr

/-- `balance_of` (`@view_function`): computes the pending interest but
never writes it back; `blockNumber` is the ambient `block_number()`
context made explicit.  Python `//` is `Int.fdiv`. -/
def balance_of (s : State) (user : Addr) (blockNumber : Int) : Int × State :=
  let stored := dictGet s.balances user 0
  if stored = 0 then (0, s)
  else
    let last := dictGet s.last_update user blockNumber
    let blocks_passed := blockNumber - last
    if blocks_passed > 0 then
      let interest := Int.fdiv (stored * s.interest_rate * blocks_passed) 100000
      (stored + interest, s)
    else (stored, s)

/-- `_apply_interest` (internal helper): applies the pending interest
for `user` before a balance update.  When interest is due it mutates
`balances` and `total_deposits` and emits an InterestApplied event;
`last_update` is refreshed whenever blocks have passed (or when the
stored balance is zero). -/
def _apply_interest (s : State) (user : Addr) (blockNumber : Int) : State :=
  let stored := dictGet s.balances user 0
  if stored = 0 then { s with last_update := dictSet s.last_update user blockNumber }
  else
    let last := dictGet s.last_update user blockNumber
    let blocks_passed := blockNumber - last
    if blocks_passed > 0 then
      let interest := Int.fdiv (stored * s.interest_rate * blocks_passed) 100000
      let s :=
        if interest > 0 then
          { s with balances := dictSet s.balances user (stored + interest),
                   total_deposits := s.total_deposits + interest,
                   events := s.events ++
                     [("InterestApplied", [Val.s user, Val.i interest])] }
        else s
      { s with last_update := dictSet s.last_update user blockNumber }
    else s

/-- `withdraw` (`@public_function`): calls `_apply_interest(sender)`
BEFORE the insufficient-balance `require`, so a failing withdraw can
already have mutated the balance slot and emitted an event; the
`require` is the raise of its message when the condition fails. -/
def withdraw (s : State) (sender : Addr) (amount : Int) (blockNumber : Int) :
    State × Option String :=
  let s := _apply_interest s sender blockNumber
  let current_balance := dictGet s.balances sender 0
  if current_balance < amount then (s, some "Insufficient balance")
  else
    ({ s with balances := dictSet s.balances sender (current_balance - amount),
              total_deposits := s.total_deposits - amount,
              last_update := dictSet s.last_update sender blockNumber,
              events := s.events ++ [("Withdraw", [Val.s sender, Val.i amount])] }, none)

end Defi

namespace StakeToken

/-- State of `my_project/contracts/StakeToken.py`: accounts are an
integer tag (owner = 1, user = other) with two flat balance slots. -/
structure State where
  name : String
  symbol : String
  decimals : Int
  total_supply : Int
  owner : Int
  is_paused : Int
  owner_balance : Int
  user_balance : Int
  user_stake : Int
  user_reward : Int
  reward_rate : Int
  events : List Event
deriving DecidableEq, Repr

/-- `StakeToken.__init__`. -/
def init : State :=
  { name := "StakeableToken", symbol := "STK", decimals := 18,
    total_supply := 1000000, owner := 1, is_paused := 0,
    owner_balance := 1000000, user_balance := 0, user_stake := 0,
    user_reward := 0, reward_rate := 10, events := [] }

/-- `balance_of` (`@view_function`). -/
def balance_of (s : State) (account : Int) : Int × State :=
  (if account = 1 then s.owner_balance else s.user_balance, s)

/-- `transfer` (`@public_function`): guarded by the pause flag and by
`owner_balance >= amount`; the insufficient-balance case falls through
the `if` with no raise, no event and no state change. -/
def transfer (s : State) (dst amount : Int) : State × Option String :=
  if s.is_paused = 1 then
    ({ s with events := s.events ++
        [("TransferFailed", [Val.s "Contract is paused"])] }, none)
  else if s.owner_balance ≥ amount then
    ({ s with owner_balance := s.owner_balance - amount,
              user_balance := s.user_balance + amount,
              events := s.events ++ [("Transfer", [Val.i amount, Val.i dst])] }, none)
  else (s, none)

/-- `mint` (`@public_function`): the docstring says owner only, but the
body has no owner check, no pause check and no sign check on `amount`;
`sender` is the ambient `msg_sender()` context, unused by the body.
The Mint event carries the already-updated total supply. -/
def mint (s : State) (_sender : Int) (amount : Int) : State × Option String :=
  let s := { s with total_supply := s.total_supply + amount }
  let s := { s with owner_balance := s.owner_balance + amount }
  ({ s with events := s.events ++
      [("Mint", [Val.i amount, Val.i s.total_supply])] }, none)

end StakeToken

/-!
The transaction submission helper, `send_transaction` in
`examples/stake_token_examples.py`:

    nonce = self.w3.eth.get_transaction_count(self.account.address)
    ...
    signed_tx = self.account.sign_transaction(tx)
    tx_hash = self.w3.eth.send_raw_transaction(signed_tx.raw_transaction)
    print("Transaction sent:", tx_hash.hex())
    receipt = self.w3.eth.wait_for_transaction_receipt(tx_hash, timeout=300)
    if receipt.status == 1: return tx_hash.hex()
    else: return None

The external collaborators (the signing facility and the node) are
oracles whose replies are inputs of the model; an exception escaping
the helper is the `raised` outcome.
-/

namespace Pipeline

/-- Reply of `account.sign_transaction`. -/
inductive SignReply where
  | signed
  | signError
deriving DecidableEq, Repr

/-- Reply of one `send_raw_transaction` attempt. -/
inductive SendReply where
  | accepted
  | transientError
  | nodeRejected
deriving DecidableEq, Repr

/-- Reply of `wait_for_transaction_receipt`: a receipt with status 1, a
receipt with another status, or the timeout exception. -/
inductive ReceiptReply where
  | success
  | reverted
  | timeout
deriving DecidableEq, Repr

/-- How `send_transaction` terminates, as seen by the caller. -/
inductive TxResult where
  | returnedHash (h : Nat)
  | returnedNone
  | raised
deriving DecidableEq, Repr

/-- Observable trace of one `send_transaction` call: how many times
`send_raw_transaction` was invoked, which hashes were printed, and the
final outcome. -/
structure TxTrace where
  broadcastAttempts : Nat
  printed : List Nat
  result : TxResult
deriving DecidableEq, Repr

/-- `send_transaction`: sign, broadcast exactly once (only `sends 0` of
the reply stream of the node is consumed), print the hash, wait for the
receipt; every exception propagates to the caller. -/
def sendTransaction (sign : SignReply) (sends : Nat → SendReply) (hash : Nat)
    (rcpt : ReceiptReply) : TxTrace :=
  match sign with
  | .signError => { broadcastAttempts := 0, printed := [], result := .raised }
  | .signed =>
    match sends 0 with
    | .transientError => { broadcastAttempts := 1, printed := [], result := .raised }
    | .nodeRejected => { broadcastAttempts := 1, printed := [], result := .raised }
    | .accepted =>
      match rcpt with
      | .success =>
        { broadcastAttempts := 1, printed := [hash], result := .returnedHash hash }
      | .reverted =>
        { broadcastAttempts := 1, printed := [hash], result := .returnedNone }
      | .timeout =>
        { broadcastAttempts := 1, printed := [hash], result := .raised }

/-- Modelled from the spec: the broadcast step of section 4.3, "on a
transient network error, retry broadcast up to a bounded count with
exponential backoff; on a node-rejected error transition to Failed
immediately".  `fuel` bounds the attempts; the result says whether the
node accepted the transaction.  The repository code has no such loop;
this definition exists only to compare behaviours. -/
def specBroadcastRetry (sends : Nat → SendReply) : Nat → Nat → Bool
  | _, 0 => false
  | i, n + 1 =>
    match sends i with
    | .accepted => true
    | .nodeRejected => false
    | .transientError => specBroadcastRetry sends (i + 1) n

/-- A node reply stream that fails transiently once and then accepts. -/
def flakyOnce : Nat → SendReply := fun n => if n = 0 then .transientError else .accepted

/-- A node reply stream that always accepts. -/
def alwaysAccepts : Nat → SendReply := fun _ => .accepted

/-- A node reply stream that always rejects the transaction. -/
def alwaysRejects : Nat → SendReply := fun _ => .nodeRejected

/-- Outcome of one confirmation wait, as it affects the node-reported
transaction count: a mined receipt (success or revert) increments the
count, a timeout leaves the transaction unmined. -/
inductive WaitOutcome where
  | confirmed
  | reverted
  | timedOut
deriving DecidableEq, Repr

/-- Nonce selection of `send_transaction`:
`nonce = w3.eth.get_transaction_count(account.address)` — the current
node-reported count, with no local tracking of issued nonces. -/
def sendTransactionNonce (txCount : Nat) : Nat := txCount

/-- View of one account during a sequence of `send_transaction` calls:
the node-reported transaction count and the nonces passed to
`send_raw_transaction` so far. -/
structure SendLog where
  txCount : Nat
  nonces : List Nat
deriving DecidableEq, Repr

/-- One `send_transaction` call: query the count, broadcast with that
nonce, wait for the receipt; a mined receipt bumps the node count while
a timeout (the exception is caught by the calling script, which then
proceeds) leaves it unchanged. -/
def sendStep (s : SendLog) (w : WaitOutcome) : SendLog :=
  { txCount :=
      match w with
      | .timedOut => s.txCount
      | _ => s.txCount + 1,
    nonces := s.nonces ++ [sendTransactionNonce s.txCount] }

/-- A sequence of `send_transaction` calls from one account within one
process. -/
def runSends (s : SendLog) : List WaitOutcome → SendLog
  | [] => s
  | w :: ws => runSends (sendStep s w) ws

/-- The list `[c, c + 1, ..., c + n - 1]`: consecutive nonces starting
at the initial node count. -/
def consecutiveFrom (c : Nat) : Nat → List Nat
  | 0 => []
  | n + 1 => c :: consecutiveFrom (c + 1) n

end Pipeline

/-!
Helper lemmas about the dict model and the embedded operations.
-/

theorem sumValues_dictSet (m : List (Addr × Int)) (k : Addr) (v : Int) :
    sumValues (dictSet m k v) = sumValues m - dictGet m k 0 + v := by
  induction m with
  | nil => simp [dictSet, dictGet, sumValues]
  | cons hd tl ih =>
    obtain ⟨k1, v1⟩ := hd
    by_cases h : k1 = k
    · simp only [dictSet, dictGet, if_pos h, sumValues]
      ring
    · simp only [dictSet, dictGet, if_neg h, sumValues, ih]
      ring

theorem dictGet_of_not_hasKey (m : List (Addr × Int)) (k : Addr) (d : Int)
    (h : dictHasKey m k = false) : dictGet m k d = d := by
  induction m with
  | nil => simp [dictGet]
  | cons hd tl ih =>
    obtain ⟨k1, v1⟩ := hd
    by_cases hk : k1 = k
    · simp [dictHasKey, hk] at h
    · simp only [dictHasKey, if_neg hk] at h
      simp only [dictGet, if_neg hk]
      exact ih h

theorem Counter.applyOp_count_nonneg (op : Counter.Op) (s : Counter.State)
    (h : 0 ≤ s.count) : 0 ≤ ((Counter.applyOp op s).1).count := by
  cases op with
  | inc =>
    simp only [Counter.applyOp, Counter.increment]
    omega
  | dec =>
    simp only [Counter.applyOp, Counter.decrement]
    split
    · simp only
      omega
    · exact h
  | res =>
    simp only [Counter.applyOp, Counter.reset]
    omega

theorem Counter.run_count_nonneg (ops : List Counter.Op) (s : Counter.State)
    (h : 0 ≤ s.count) : 0 ≤ (Counter.run ops s).count := by
  induction ops generalizing s with
  | nil => exact h
  | cons op rest ih =>
    exact ih _ (Counter.applyOp_count_nonneg op s h)

theorem Defi.balance_of_snd (s : Defi.State) (u : Addr) (bn : Int) :
    (Defi.balance_of s u bn).2 = s := by
  simp only [Defi.balance_of]
  split
  · rfl
  · split <;> rfl

/-!
Claim theorems.
-/

/-- C3: an operation tagged `@view_function` never mutates any state
slot and never appends to the event log; in particular `Defi.balance_of`
computes pending interest without writing it back, and a second `Read`
of the same slot observes no change caused by the first. -/
theorem read_ops_never_mutate :
    (∀ (s : Defi.State) (u : Addr) (bn : Int), (Defi.balance_of s u bn).2 = s) ∧
    (∀ s : Counter.State, (Counter.get_count s).2 = s) ∧
    (∀ (s : BeginnerToken.State) (a : Addr), (BeginnerToken.balance_of s a).2 = s) ∧
    (∀ (s : MintableToken.State) (u : Addr), (MintableToken.balance_of s u).2 = s) ∧
    (∀ (s : StakeToken.State) (a : Int), (StakeToken.balance_of s a).2 = s) ∧
    (∀ (s : Defi.State) (u : Addr) (bn : Int),
      (Defi.balance_of (Defi.balance_of s u bn).2 u bn).1 = (Defi.balance_of s u bn).1) := by
  refine ⟨fun s u bn => Defi.balance_of_snd s u bn, fun s => rfl, fun s a => rfl,
    fun s u => rfl, fun s a => rfl, fun s u bn => ?_⟩
  rw [Defi.balance_of_snd]

/-- C6: starting from a fresh Counter (slot `count` holding 0), three
sequential `increment` calls make `get_count` return 3 and leave exactly
three Incremented events with payloads 1, 2, 3 in order. -/
theorem counter_three_increments :
    (Counter.get_count
      ((Counter.increment ((Counter.increment ((Counter.increment Counter.init).1)).1)).1)).1 = 3 ∧
    ((Counter.increment ((Counter.increment ((Counter.increment Counter.init).1)).1)).1).events =
      [("Incremented", [Val.i 1]), ("Incremented", [Val.i 2]), ("Incremented", [Val.i 3])] := by
  decide

/-- C7: reading a key that is not present in a nested-mapping slot
returns the declared zero value instead of failing: `balance_of` on an
account with no recorded balance returns 0 in BeginnerToken,
MintableToken and Defi. -/
theorem missing_key_reads_zero
    (bt : BeginnerToken.State) (mt : MintableToken.State) (df : Defi.State)
    (a : Addr) (bn : Int)
    (h1 : dictHasKey bt.balances a = false)
    (h2 : dictHasKey mt.balances a = false)
    (h3 : dictHasKey df.balances a = false) :
    (BeginnerToken.balance_of bt a).1 = 0 ∧
    (MintableToken.balance_of mt a).1 = 0 ∧
    (Defi.balance_of df a bn).1 = 0 := by
  refine ⟨?_, ?_, ?_⟩
  · simp [BeginnerToken.balance_of, dictGet_of_not_hasKey _ _ _ h1]
  · simp [MintableToken.balance_of, dictGet_of_not_hasKey _ _ _ h2]
  · simp [Defi.balance_of, dictGet_of_not_hasKey _ _ _ h3]

/-- Witness for C7 at concrete states: the freshly constructed tokens
and a Defi pool that only knows the account alice, read at account
bob. -/
theorem missing_key_reads_zero_witness :
    dictHasKey (BeginnerToken.init "alice").balances "bob" = false ∧
    dictHasKey (MintableToken.init "alice").balances "bob" = false ∧
    dictHasKey (Defi.State.mk "alice" [("alice", 50)] 50 500 [] []).balances "bob" = false ∧
    ((BeginnerToken.balance_of (BeginnerToken.init "alice") "bob").1 = 0 ∧
      (MintableToken.balance_of (MintableToken.init "alice") "bob").1 = 0 ∧
      (Defi.balance_of (Defi.State.mk "alice" [("alice", 50)] 50 500 [] []) "bob" 7).1 = 0) :=
  ⟨by decide, by decide, by decide,
    missing_key_reads_zero _ _ _ "bob" 7 (by decide) (by decide) (by decide)⟩

/-- C8: the Counter keeps `count` nonnegative under every sequence of
increment, decrement and reset operations, and `decrement` at zero is a
silent no-op: the state (count and event log) is returned unchanged and
no exception is raised. -/
theorem counter_nonneg_and_silent_decrement :
    (∀ ops : List Counter.Op, 0 ≤ (Counter.run ops Counter.init).count) ∧
    (∀ s : Counter.State, s.count = 0 → Counter.decrement s = (s, none)) := by
  constructor
  · intro ops
    exact Counter.run_count_nonneg ops Counter.init (by simp [Counter.init])
  · intro s h
    simp [Counter.decrement, h]

/-- Witness for C8: a run that tries to decrement past zero, and the
decrement no-op at the zero state. -/
theorem counter_nonneg_and_silent_decrement_witness :
    0 ≤ (Counter.run [Counter.Op.dec, Counter.Op.inc, Counter.Op.dec, Counter.Op.dec]
      Counter.init).count ∧
    Counter.decrement { count := 0, events := [] } = ({ count := 0, events := [] }, none) :=
  ⟨counter_nonneg_and_silent_decrement.1 _,
    counter_nonneg_and_silent_decrement.2 { count := 0, events := [] } rfl⟩

/-- C10: StakeToken.mint is unconditional: for every state, every
ambient caller and every amount (positive or not), it adds `amount` to
`total_supply` and to `owner_balance` and appends one Mint event — no
owner check, no pause check, no positivity check.  In particular the
result does not depend on the caller. -/
theorem stake_mint_unconditional (s : StakeToken.State) (sender amount : Int) :
    StakeToken.mint s sender amount =
      ({ s with total_supply := s.total_supply + amount,
                owner_balance := s.owner_balance + amount,
                events := s.events ++
                  [("Mint", [Val.i amount, Val.i (s.total_supply + amount)])] }, none) ∧
    (∀ other : Int, StakeToken.mint s sender amount = StakeToken.mint s other amount) :=
  ⟨rfl, fun _ => rfl⟩

/-- C9: the sum of all balances equals `total_supply`: it holds after
construction (the creator-owner receives the entire supply), it is
preserved by every transfer, mint and burn, and any of these operations
that raises returns the state unchanged. -/
theorem beginner_token_supply_conservation :
    (∀ creator : Addr,
      sumValues (BeginnerToken.init creator).balances =
        (BeginnerToken.init creator).total_supply) ∧
    (∀ (op : BeginnerToken.Op) (s : BeginnerToken.State),
      sumValues s.balances = s.total_supply →
      sumValues ((BeginnerToken.applyOp op s).1).balances =
        ((BeginnerToken.applyOp op s).1).total_supply) ∧
    (∀ (op : BeginnerToken.Op) (s : BeginnerToken.State) (e : String),
      (BeginnerToken.applyOp op s).2 = some e → (BeginnerToken.applyOp op s).1 = s) := by
  refine ⟨?_, ?_, ?_⟩
  · intro creator
    simp [BeginnerToken.init, dictSet, sumValues]
  · intro op s h
    cases op with
    | transfer sender dst amount =>
      simp only [BeginnerToken.applyOp, BeginnerToken.transfer]
      split
      · exact h
      · split
        · exact h
        · simp only [sumValues_dictSet]
          rw [← h]
          ring
    | mint sender amount =>
      simp only [BeginnerToken.applyOp, BeginnerToken.mint]
      split
      · exact h
      · split
        · exact h
        · simp only [sumValues_dictSet]
          rw [← h]
          ring
    | burn sender amount =>
      simp only [BeginnerToken.applyOp, BeginnerToken.burn]
      split
      · exact h
      · split
        · exact h
        · simp only [sumValues_dictSet]
          rw [← h]
          ring
  · intro op s e
    cases op with
    | transfer sender dst amount =>
      simp only [BeginnerToken.applyOp, BeginnerToken.transfer]
      split
      · intro _; rfl
      · split
        · intro _; rfl
        · intro he; simp at he
    | mint sender amount =>
      simp only [BeginnerToken.applyOp, BeginnerToken.mint]
      split
      · intro _; rfl
      · split
        · intro _; rfl
        · intro he; simp at he
    | burn sender amount =>
      simp only [BeginnerToken.applyOp, BeginnerToken.burn]
      split
      · intro _; rfl
      · split
        · intro _; rfl
        · intro he; simp at he

/-- Witness for C9: the freshly constructed token, a successful
transfer from the owner, and a rejected mint by a non-owner returning
the state unchanged. -/
theorem beginner_token_supply_conservation_witness :
    sumValues (BeginnerToken.init "alice").balances =
      (BeginnerToken.init "alice").total_supply ∧
    sumValues ((BeginnerToken.applyOp (BeginnerToken.Op.transfer "alice" "bob" 5)
        (BeginnerToken.init "alice")).1).balances =
      ((BeginnerToken.applyOp (BeginnerToken.Op.transfer "alice" "bob" 5)
        (BeginnerToken.init "alice")).1).total_supply ∧
    (BeginnerToken.applyOp (BeginnerToken.Op.mint "bob" 5)
        (BeginnerToken.init "alice")).1 = BeginnerToken.init "alice" :=
  ⟨beginner_token_supply_conservation.1 "alice",
    beginner_token_supply_conservation.2.1 _ (BeginnerToken.init "alice") (by decide),
    beginner_token_supply_conservation.2.2 _ (BeginnerToken.init "alice")
      "Only owner can mint tokens!" (by decide)⟩

theorem Pipeline.runSends_nonces (ws : List Pipeline.WaitOutcome) :
    ∀ (c : Nat) (ns : List Nat),
    (∀ w ∈ ws, w ≠ Pipeline.WaitOutcome.timedOut) →
    (Pipeline.runSends { txCount := c, nonces := ns } ws).nonces =
      ns ++ Pipeline.consecutiveFrom c ws.length := by
  induction ws with
  | nil => intro c ns _; simp [Pipeline.runSends, Pipeline.consecutiveFrom]
  | cons w rest ih =>
    intro c ns h
    have hw : w ≠ Pipeline.WaitOutcome.timedOut := h w (List.mem_cons_self _ _)
    have hr : ∀ x ∈ rest, x ≠ Pipeline.WaitOutcome.timedOut :=
      fun x hx => h x (List.mem_cons_of_mem _ hx)
    cases w with
    | timedOut => exact absurd rfl hw
    | confirmed =>
      simp only [Pipeline.runSends, Pipeline.sendStep, Pipeline.sendTransactionNonce]
      rw [ih (c + 1) (ns ++ [c]) hr]
      simp [Pipeline.consecutiveFrom]
    | reverted =>
      simp only [Pipeline.runSends, Pipeline.sendStep, Pipeline.sendTransactionNonce]
      rw [ih (c + 1) (ns ++ [c]) hr]
      simp [Pipeline.consecutiveFrom]

theorem Pipeline.consecutiveFrom_chain (n : Nat) :
    ∀ c : Nat, List.Chain' (fun a b => b = a + 1) (Pipeline.consecutiveFrom c n) := by
  induction n with
  | zero => intro c; simp [Pipeline.consecutiveFrom]
  | succ m ih =>
    intro c
    cases m with
    | zero => simp [Pipeline.consecutiveFrom]
    | succ k =>
      have h2 : Pipeline.consecutiveFrom c (k + 2) =
          c :: (c + 1) :: Pipeline.consecutiveFrom (c + 2) k := rfl
      rw [h2, List.chain'_cons]
      refine ⟨rfl, ?_⟩
      have h3 : (c + 1) :: Pipeline.consecutiveFrom (c + 2) k =
          Pipeline.consecutiveFrom (c + 1) (k + 1) := rfl
      rw [h3]
      exact ih (c + 1)

/-- C1 counterexample: after a timed-out (hence unconfirmed)
transaction whose exception the calling script catches, the next
send_transaction call re-reads the same node-reported count and reuses
the nonce consumed by the unconfirmed transaction: starting from count
3, the nonce sequence passed to broadcast is [3, 3] — a repeat, not
strictly increasing. -/
theorem nonce_reuse_cex :
    (Pipeline.runSends { txCount := 3, nonces := [] }
      [Pipeline.WaitOutcome.timedOut, Pipeline.WaitOutcome.confirmed]).nonces = [3, 3] ∧
    ¬ List.Chain' (fun a b : Nat => a < b)
      (Pipeline.runSends { txCount := 3, nonces := [] }
        [Pipeline.WaitOutcome.timedOut, Pipeline.WaitOutcome.confirmed]).nonces := by
  constructor
  · rfl
  · intro hch
    rw [show (Pipeline.runSends { txCount := 3, nonces := [] }
      [Pipeline.WaitOutcome.timedOut, Pipeline.WaitOutcome.confirmed]).nonces = [3, 3] from rfl,
      List.chain'_cons] at hch
    exact absurd hch.1 (by decide)

/-- C1 (amended): send_transaction does no local nonce tracking — each
call uses the node-reported transaction count as the nonce and waits
for the receipt before returning.  Whenever every confirmation wait in
the sequence completes with a mined receipt (no timeout), the nonces
passed to broadcast are consecutive from the initial count: strictly
increasing with no gaps and no repeats.  A timed-out unconfirmed
transaction breaks this: its nonce is reused by the next call. -/
theorem nonces_consecutive_without_timeout
    (c : Nat) (ws : List Pipeline.WaitOutcome)
    (h : ∀ w ∈ ws, w ≠ Pipeline.WaitOutcome.timedOut) :
    (Pipeline.runSends { txCount := c, nonces := [] } ws).nonces =
      Pipeline.consecutiveFrom c ws.length ∧
    List.Chain' (fun a b => b = a + 1)
      (Pipeline.runSends { txCount := c, nonces := [] } ws).nonces := by
  have he := Pipeline.runSends_nonces ws c [] h
  simp only [List.nil_append] at he
  exact ⟨he, he ▸ Pipeline.consecutiveFrom_chain ws.length c⟩

/-- Witness for C1 at count 5 and three completed waits: the nonce
sequence is [5, 6, 7]. -/
theorem nonces_consecutive_without_timeout_witness :
    (Pipeline.runSends { txCount := 5, nonces := [] }
      [Pipeline.WaitOutcome.confirmed, Pipeline.WaitOutcome.reverted,
        Pipeline.WaitOutcome.confirmed]).nonces = Pipeline.consecutiveFrom 5 3 ∧
    List.Chain' (fun a b => b = a + 1)
      (Pipeline.runSends { txCount := 5, nonces := [] }
        [Pipeline.WaitOutcome.confirmed, Pipeline.WaitOutcome.reverted,
          Pipeline.WaitOutcome.confirmed]).nonces :=
  nonces_consecutive_without_timeout 5
    [Pipeline.WaitOutcome.confirmed, Pipeline.WaitOutcome.reverted,
      Pipeline.WaitOutcome.confirmed] (by decide)

/-- C4 counterexample: on a node stream whose first broadcast attempt
fails transiently and whose second would be accepted, send_transaction
raises after exactly one attempt — the spec-modelled retry loop with
bound 2 would have succeeded. -/
theorem broadcast_no_retry_cex :
    Pipeline.sendTransaction Pipeline.SignReply.signed Pipeline.flakyOnce 7
        Pipeline.ReceiptReply.success =
      { broadcastAttempts := 1, printed := [], result := Pipeline.TxResult.raised } ∧
    Pipeline.specBroadcastRetry Pipeline.flakyOnce 0 2 = true :=
  ⟨rfl, rfl⟩

/-- C4 (amended): no broadcast is ever retried: send_transaction makes
at most one broadcast attempt — zero when signing fails — and every
error, transient or node-rejected, propagates immediately with no
backoff. -/
theorem broadcast_never_retried
    (sign : Pipeline.SignReply) (sends : Nat → Pipeline.SendReply) (hash : Nat)
    (rcpt : Pipeline.ReceiptReply) :
    (Pipeline.sendTransaction sign sends hash rcpt).broadcastAttempts ≤ 1 ∧
    (sign = Pipeline.SignReply.signError →
      Pipeline.sendTransaction sign sends hash rcpt =
        { broadcastAttempts := 0, printed := [], result := Pipeline.TxResult.raised }) ∧
    (sign = Pipeline.SignReply.signed → sends 0 ≠ Pipeline.SendReply.accepted →
      Pipeline.sendTransaction sign sends hash rcpt =
        { broadcastAttempts := 1, printed := [], result := Pipeline.TxResult.raised }) := by
  refine ⟨?_, ?_, ?_⟩
  · cases sign with
    | signError => simp [Pipeline.sendTransaction]
    | signed =>
      cases hs : sends 0 with
      | accepted => cases rcpt <;> simp [Pipeline.sendTransaction, hs]
      | transientError => simp [Pipeline.sendTransaction, hs]
      | nodeRejected => simp [Pipeline.sendTransaction, hs]
  · intro h
    subst h
    rfl
  · intro h hne
    subst h
    cases hs : sends 0 with
    | accepted => exact absurd hs hne
    | transientError => simp [Pipeline.sendTransaction, hs]
    | nodeRejected => simp [Pipeline.sendTransaction, hs]

/-- Witness for C4: a signing failure makes zero broadcast attempts,
and a node rejection makes exactly one and raises. -/
theorem broadcast_never_retried_witness :
    (Pipeline.sendTransaction Pipeline.SignReply.signed Pipeline.alwaysRejects 3
      Pipeline.ReceiptReply.success).broadcastAttempts ≤ 1 ∧
    Pipeline.sendTransaction Pipeline.SignReply.signError Pipeline.alwaysAccepts 3
        Pipeline.ReceiptReply.success =
      { broadcastAttempts := 0, printed := [], result := Pipeline.TxResult.raised } ∧
    Pipeline.sendTransaction Pipeline.SignReply.signed Pipeline.alwaysRejects 3
        Pipeline.ReceiptReply.success =
      { broadcastAttempts := 1, printed := [], result := Pipeline.TxResult.raised } :=
  ⟨(broadcast_never_retried Pipeline.SignReply.signed Pipeline.alwaysRejects 3
      Pipeline.ReceiptReply.success).1,
    (broadcast_never_retried Pipeline.SignReply.signError Pipeline.alwaysAccepts 3
      Pipeline.ReceiptReply.success).2.1 rfl,
    (broadcast_never_retried Pipeline.SignReply.signed Pipeline.alwaysRejects 3
      Pipeline.ReceiptReply.success).2.2 rfl (by decide)⟩

/-- C5 counterexample: when the confirmation wait times out,
send_transaction does not return any value at all — the timeout
exception propagates (`raised`), so no TimedOut result carrying the
transaction hash is returned to the caller. -/
theorem timeout_raises_cex :
    Pipeline.sendTransaction Pipeline.SignReply.signed Pipeline.alwaysAccepts 7
        Pipeline.ReceiptReply.timeout =
      { broadcastAttempts := 1, printed := [7], result := Pipeline.TxResult.raised } ∧
    Pipeline.TxResult.raised ≠ Pipeline.TxResult.returnedHash 7 ∧
    Pipeline.TxResult.raised ≠ Pipeline.TxResult.returnedNone :=
  ⟨rfl, by decide, by decide⟩

/-- C5 (amended): on a confirmation timeout send_transaction raises
rather than returning; the outcome is distinguishable from Confirmed
(the hash string is returned) and from Reverted (None is returned), and
the transaction hash reaches the caller only through the print made
when the transaction was sent, before the wait began. -/
theorem timeout_outcome (sends : Nat → Pipeline.SendReply) (hash : Nat)
    (h : sends 0 = Pipeline.SendReply.accepted) :
    Pipeline.sendTransaction Pipeline.SignReply.signed sends hash
        Pipeline.ReceiptReply.timeout =
      { broadcastAttempts := 1, printed := [hash], result := Pipeline.TxResult.raised } ∧
    (∀ h2 : Nat, Pipeline.TxResult.raised ≠ Pipeline.TxResult.returnedHash h2) ∧
    Pipeline.TxResult.raised ≠ Pipeline.TxResult.returnedNone := by
  refine ⟨?_, fun h2 => by simp, by simp⟩
  simp [Pipeline.sendTransaction, h]

/-- Witness for C5 at hash 9 on an accepting node. -/
theorem timeout_outcome_witness :
    Pipeline.sendTransaction Pipeline.SignReply.signed Pipeline.alwaysAccepts 9
        Pipeline.ReceiptReply.timeout =
      { broadcastAttempts := 1, printed := [9], result := Pipeline.TxResult.raised } ∧
    Pipeline.TxResult.raised ≠ Pipeline.TxResult.returnedHash 9 ∧
    Pipeline.TxResult.raised ≠ Pipeline.TxResult.returnedNone :=
  ⟨(timeout_outcome Pipeline.alwaysAccepts 9 rfl).1,
    (timeout_outcome Pipeline.alwaysAccepts 9 rfl).2.1 9,
    (timeout_outcome Pipeline.alwaysAccepts 9 rfl).2.2⟩

/-- C2 counterexample: two concrete failures of the claim as stated.
First, with owner_balance holding 100 and the contract not paused,
StakeToken.transfer of 150 returns normally — no InsufficientValue
error, no exception, no event — so the operation does not fail as the
claim requires.  Second, with a Defi balance slot holding 100 (rate
500, two blocks of pending interest), withdraw of 150 raises
"Insufficient balance" but the slot afterwards holds 101, not its
prior value 100, and an InterestApplied event was emitted: the failing
write is not atomic, because `_apply_interest` runs before the balance
check. -/
theorem insufficient_value_claim_cex :
    StakeToken.transfer { StakeToken.init with owner_balance := 100 } 2 150 =
      ({ StakeToken.init with owner_balance := 100 }, none) ∧
    (Defi.withdraw (Defi.State.mk "alice" [("alice", 100)] 100 500 [("alice", 0)] [])
      "alice" 150 2).2 = some "Insufficient balance" ∧
    dictGet (Defi.withdraw (Defi.State.mk "alice" [("alice", 100)] 100 500 [("alice", 0)] [])
      "alice" 150 2).1.balances "alice" 0 = 101 ∧
    (Defi.withdraw (Defi.State.mk "alice" [("alice", 100)] 100 500 [("alice", 0)] [])
      "alice" 150 2).1.events = [("InterestApplied", [Val.s "alice", Val.i 1])] :=
  ⟨by decide, by decide, by decide, by decide⟩

/-- C2 (amended): for the two write operations the claim cites, a
transfer that would take the balance slot below zero leaves the slot
at its prior value: BeginnerToken.transfer fails with the raise "Not
enough tokens!" (the InsufficientValue case of the taxonomy) and
returns the state unchanged, while StakeToken.transfer falls through
its guard silently, returning with no error and no event.  This
atomicity is not contract-wide: Defi.withdraw applies pending interest
before its balance check, so a failing withdraw can mutate the slot
and emit an event first. -/
theorem insufficient_balance_write_atomic
    (bs : BeginnerToken.State) (sender dst : Addr) (amount : Int)
    (ss : StakeToken.State) (sdst samount : Int)
    (h1 : dictGet bs.balances sender 0 < amount)
    (h2 : ss.is_paused ≠ 1) (h3 : ss.owner_balance < samount) :
    BeginnerToken.transfer bs sender dst amount = (bs, some "Not enough tokens!") ∧
    StakeToken.transfer ss sdst samount = (ss, none) := by
  constructor
  · simp only [BeginnerToken.transfer, if_pos h1]
  · simp only [StakeToken.transfer, if_neg h2]
    rw [if_neg (by omega : ¬ ss.owner_balance ≥ samount)]

/-- Witness for C2: a BeginnerToken whose sender holds 100 rejects a
transfer of 150 with the error and keeps the state; a StakeToken whose
owner_balance is 100 silently ignores a transfer of 150. -/
theorem insufficient_balance_write_atomic_witness :
    dictGet ({ BeginnerToken.init "alice" with balances := [("alice", 100)] } : BeginnerToken.State).balances "alice" 0 < 150 ∧
    BeginnerToken.transfer { BeginnerToken.init "alice" with balances := [("alice", 100)] } "alice" "bob" 150 =
      ({ BeginnerToken.init "alice" with balances := [("alice", 100)] }, some "Not enough tokens!") ∧
    StakeToken.transfer { StakeToken.init with owner_balance := 100 } 2 150 =
      ({ StakeToken.init with owner_balance := 100 }, none) :=
  ⟨by decide,
    (insufficient_balance_write_atomic
      { BeginnerToken.init "alice" with balances := [("alice", 100)] } "alice" "bob" 150
      { StakeToken.init with owner_balance := 100 } 2 150
      (by decide) (by decide) (by decide)).1,
    (insufficient_balance_write_atomic
      { BeginnerToken.init "alice" with balances := [("alice", 100)] } "alice" "bob" 150
      { StakeToken.init with owner_balance := 100 } 2 150
      (by decide) (by decide) (by decide)).2⟩
